import Mathlib

/-!
Shallow embedding of the `linux_proc` crate (files `src/util.rs`, `src/stat.rs`,
`src/diskstats.rs`, `src/uptime.rs`) and proofs about its parsers.

Conventions of the embedding:
* Rust `&str` slices become `List Char`.  Every slice the source takes is at a
  char boundary computed from `len_utf8`, so byte-index arithmetic corresponds
  exactly to dropping a prefix of the char list.
* `u64`/`u32` become `Nat`; where the source can wrap (the `acc * 10 + val`
  accumulation of `parse_u64`) the embedding reduces modulo `2 ^ 64` at each
  step, which is release-mode Rust semantics and what the crate documents.
  The `u32` accumulator of `parse_nanos` can never exceed `999 999 999`, so it
  is embedded as plain `Nat`.
* A Rust `panic!` is a distinguished terminal outcome, `PResult.panicked`.
* `std::time::Duration` values are always built with `Duration::from_millis`
  or `Duration::new(secs, nanos)` with `nanos < 10 ^ 9`; both are injective
  there, so durations are kept as the underlying counters.
-/

deriving instance DecidableEq for Except

namespace LinuxProc

/-- The whitespace test of `util.rs::consume_space`: the source skips while
`ch.is_whitespace() || ch == '\n' || ch == '\r'`.  Restricted to the ASCII
range that can occur in `/proc` files this is exactly the set below. -/
def isSpaceChar (c : Char) : Bool :=
  c = ' ' || c = '\t' || c = '\n' || c = '\r' || c = '\x0b' || c = '\x0c'

/-- Rust `char::to_digit(10)`: `some` exactly on ASCII `'0'..='9'`. -/
def char_to_digit (c : Char) : Option Nat :=
  if 48 ≤ c.toNat ∧ c.toNat ≤ 57 then some (c.toNat - 48) else none

/-- `util.rs::consume_space`: drop the maximal run of leading whitespace. -/
def consume_space (input : List Char) : List Char :=
  input.dropWhile isSpaceChar

/-- The digit-accumulation loop of `util.rs::parse_u64`: repeated
`acc = acc * 10 + val` on a `u64`, stopping at the first non-digit.
Wrapping unsigned arithmetic is the `% 2 ^ 64`. -/
def parseU64Loop : List Char → Nat → List Char × Nat
  | [], acc => ([], acc)
  | c :: rest, acc =>
    match char_to_digit c with
    | some v => parseU64Loop rest ((acc * 10 + v) % 2 ^ 64)
    | none => (c :: rest, acc)

/-- `util.rs::parse_u64`: skip space, require a first digit, then accumulate
greedily; returns the remainder past the digit run and the value. -/
def parse_u64 (input : List Char) : Option (List Char × Nat) :=
  match consume_space input with
  | [] => none
  | c :: rest =>
    match char_to_digit c with
    | some v => some (parseU64Loop rest v)
    | none => none

/-- `util.rs::parse_token`: skip space, fail on empty, else split off the
maximal run of non-whitespace characters.  Returns `(remainder, token)`. -/
def parse_token (input : List Char) : Option (List Char × List Char) :=
  let tok := consume_space input
  if tok.isEmpty then none
  else some (tok.dropWhile (fun c => !isSpaceChar c),
             tok.takeWhile (fun c => !isSpaceChar c))

/-- `util.rs::expect_bytes`: skip space, then require the literal prefix. -/
def expect_bytes (expected : List Char) (input : List Char) : Option (List Char) :=
  let input := consume_space input
  if expected.isPrefixOf input then some (input.drop expected.length) else none

/-- Outcome of code that may `panic!`: either a value or the panic. -/
inductive PResult (α : Type) where
  | ok (val : α)
  | panicked (msg : String)
deriving DecidableEq

/-- The loop of `util.rs::parse_nanos`: after a digit, `multer /= 10` and then
`if multer == 1 { panic!("too many numbers") }`, exactly as in the source. -/
def parseNanosLoop : List Char → Nat → Nat → PResult (List Char × Nat)
  | [], acc, _ => .ok ([], acc)
  | c :: rest, acc, multer =>
    match char_to_digit c with
    | none => .ok (c :: rest, acc)
    | some v =>
      let acc2 := acc + v * multer
      let multer2 := multer / 10
      if multer2 = 1 then .panicked "too many numbers"
      else parseNanosLoop rest acc2 multer2

/-- `util.rs::parse_nanos`: skip space; the first digit weighs
`100 000 000`, later ones successively less; `none` if the first character is
not a digit; panics via `parseNanosLoop` when too many digits appear. -/
def parse_nanos (input : List Char) : PResult (Option (List Char × Nat)) :=
  match consume_space input with
  | [] => .ok none
  | c :: rest =>
    match char_to_digit c with
    | none => .ok none
    | some v =>
      match parseNanosLoop rest (v * 100000000) 10000000 with
      | .ok pair => .ok (some pair)
      | .panicked m => .panicked m

-- The unit tests of `util.rs`, replayed on the embedding.
example : parse_u64 (String.toList "") = none := by decide
example : parse_u64 (String.toList " ") = none := by decide
example : parse_u64 (String.toList "12 ") = some ([' '], 12) := by decide
example : parse_u64 (String.toList "12") = some ([], 12) := by decide
example : parse_u64 (String.toList "a12") = none := by decide
example : parse_u64 (String.toList " 12a") = some (['a'], 12) := by decide
example : consume_space (String.toList " a ") = String.toList "a " := by decide
example : parse_token (String.toList " token ") =
    some (String.toList " ", String.toList "token") := by decide
example : expect_bytes (String.toList "abc") (String.toList "abcde") =
    some (String.toList "de") := by decide
example : parse_nanos (String.toList "") = .ok none := by decide
example : parse_nanos (String.toList "1") = .ok (some ([], 100000000)) := by decide
example : parse_nanos (String.toList " 12") = .ok (some ([], 120000000)) := by decide
example : parse_nanos (String.toList "012") = .ok (some ([], 12000000)) := by decide
example : parse_nanos (String.toList ".12") = .ok none := by decide

/-- The error type of Rust `std::io` as the crate uses it: `UnexpectedEof`
from an exhausted source, or `InvalidData` wrapping a decode error message
(`io::Error::new(InvalidData, e)` in `LineParser::parse_line`). -/
inductive IOError where
  | unexpectedEof
  | invalidData (msg : String)
deriving DecidableEq

/-- `util.rs::LineParser`: a buffered source (the not-yet-fetched lines, each
including its trailing newline as `BufRead::read_line` returns it) plus the
reusable line buffer. -/
structure LineParser where
  lines : List (List Char)
  buffer : List Char
deriving DecidableEq

/-- The fetch step inside `LineParser::parse_line`: only if the buffer is
empty, `read_line` the next line into it; zero bytes read is `UnexpectedEof`. -/
def readLineIfConsumed (st : LineParser) : Except IOError LineParser :=
  if st.buffer.isEmpty then
    match st.lines with
    | [] => .error .unexpectedEof
    | l :: rest => .ok ⟨rest, l⟩
  else .ok st

/-- `util.rs::LineParser::parse_line`: fetch a line if the previous one was
consumed, run the decoder on the buffer; on success clear the buffer, on
decode failure wrap the error as `InvalidData` and keep the buffer. -/
def parse_line (p : List Char → Except String α) (st : LineParser) :
    Except IOError α × LineParser :=
  match readLineIfConsumed st with
  | .error e => (.error e, st)
  | .ok st2 =>
    match p st2.buffer with
    | .error e => (.error (.invalidData e), st2)
    | .ok v => (.ok v, { st2 with buffer := [] })

/-- Size of a `LineParser` state: each successful `parse_line` strictly
decreases it (a fetched line or a non-empty buffer is consumed). -/
def lpMeasure (st : LineParser) : Nat :=
  2 * st.lines.length + (if st.buffer.isEmpty then 0 else 1)

theorem parse_line_ok_lpMeasure {α : Type} {p : List Char → Except String α}
    {st : LineParser} {v : α} {st2 : LineParser}
    (h : parse_line p st = (.ok v, st2)) : lpMeasure st2 < lpMeasure st := by
  unfold parse_line readLineIfConsumed at h
  split at h
  · simp at h
  · rename_i st3 heq
    split at h
    · simp at h
    · cases h
      split at heq
      · rename_i hb
        split at heq
        · simp at heq
        · rename_i l rest hl
          cases heq
          simp [lpMeasure, hl, hb]
      · rename_i hb
        cases heq
        simp only [lpMeasure]
        simp [hb]

/-- The closure produced by the `parse_single!` macro of `stat.rs`: exact
label token, one `u64`, and only whitespace after it. -/
def parse_single (name : String) (input : List Char) : Except String Nat :=
  match parse_token input with
  | none => .error "cannot read name"
  | some (input2, tok) =>
    if tok ≠ name.toList then .error "incorrect name"
    else
      match parse_u64 input2 with
      | none => .error "cannot read value"
      | some (input3, value) =>
        if ¬ (consume_space input3).isEmpty then .error "trailing content"
        else .ok value

/-- `stat.rs::StatCpu`: the nine per-context counters of one `cpu` line. -/
structure StatCpu where
  user : Nat
  nice : Nat
  system : Nat
  idle : Nat
  iowait : Nat
  irq : Nat
  softirq : Nat
  steal : Nat
  guest : Nat
deriving DecidableEq

/-- `stat.rs::StatCpu::from_str`: a token starting with `cpu`, then nine
`u64` fields, then nothing but whitespace. -/
def StatCpu.from_str (input : List Char) : Option StatCpu := do
  let (input, cpunum) ← parse_token input
  if ¬ (String.toList "cpu").isPrefixOf cpunum then none
  else
    let (input, user) ← parse_u64 input
    let (input, nice) ← parse_u64 input
    let (input, system) ← parse_u64 input
    let (input, idle) ← parse_u64 input
    let (input, iowait) ← parse_u64 input
    let (input, irq) ← parse_u64 input
    let (input, softirq) ← parse_u64 input
    let (input, steal) ← parse_u64 input
    let (input, guest) ← parse_u64 input
    if ¬ (consume_space input).isEmpty then none
    else some ⟨user, nice, system, idle, iowait, irq, softirq, steal, guest⟩

/-- `stat.rs::Stat`: the decoded aggregate snapshot of `/proc/stat`. -/
structure Stat where
  cpu_totals : StatCpu
  cpus : List StatCpu
  context_switches : Nat
  boot_time : Nat
  processes : Nat
  procs_running : Nat
  procs_blocked : Nat
deriving DecidableEq

/-- The closure `Stat::from_reader` passes for the totals line:
`StatCpu::from_str(s).ok_or_else(|| Error::from("reading totals line"))`. -/
def statTotalsDecoder (s : List Char) : Except String StatCpu :=
  match StatCpu.from_str s with
  | some c => .ok c
  | none => .error "reading totals line"

/-- The closure for per-core lines: same decode, empty error message. -/
def statCoreDecoder (s : List Char) : Except String StatCpu :=
  match StatCpu.from_str s with
  | some c => .ok c
  | none => .error ""

/-- The `loop` in `Stat::from_reader`: keep decoding per-core lines while
`parse_line` succeeds; the first failure breaks, and (as in the source) the
failing line stays in the buffer of the returned state. -/
def statCpuLoop (st : LineParser) (acc : List StatCpu) : List StatCpu × LineParser :=
  match h : parse_line statCoreDecoder st with
  | (.ok c, st2) => statCpuLoop st2 (acc ++ [c])
  | (.error _, st2) => (acc, st2)
termination_by lpMeasure st
decreasing_by exact parse_line_ok_lpMeasure h

/-- `stat.rs::Stat::from_reader`, at line granularity: totals line, per-core
loop, then the five labelled scalar lines in order. -/
def Stat.from_reader (lines : List (List Char)) : Except IOError Stat :=
  let st : LineParser := ⟨lines, []⟩
  match parse_line statTotalsDecoder st with
  | (.error e, _) => .error e
  | (.ok cpu_totals, st) =>
    match statCpuLoop st [] with
    | (cpus, st) =>
      match parse_line (parse_single "ctxt") st with
      | (.error e, _) => .error e
      | (.ok context_switches, st) =>
        match parse_line (parse_single "btime") st with
        | (.error e, _) => .error e
        | (.ok boot_time, st) =>
          match parse_line (parse_single "processes") st with
          | (.error e, _) => .error e
          | (.ok processes, st) =>
            match parse_line (parse_single "procs_running") st with
            | (.error e, _) => .error e
            | (.ok procs_running, st) =>
              match parse_line (parse_single "procs_blocked") st with
              | (.error e, _) => .error e
              | (.ok procs_blocked, _) =>
                .ok ⟨cpu_totals, cpus, context_switches, boot_time,
                     processes, procs_running, procs_blocked⟩

/-- The `err_msg!` macro of `diskstats.rs`: `Option` to `Result` with a
field-naming message. -/
def err_msg (o : Option α) (msg : String) : Except String α :=
  match o with
  | some a => .ok a
  | none => .error msg

/-- `diskstats.rs::DiskStat`: one device line.  The three `Duration` fields
built with `Duration::from_millis` are kept as their millisecond counts
(`time_reading`, `time_writing`, `io_time`, `io_time_weighted`). -/
structure DiskStat where
  major : Nat
  minor : Nat
  name : List Char
  reads_completed : Nat
  reads_merged : Nat
  sectors_read : Nat
  time_reading : Nat
  writes_completed : Nat
  writes_merged : Nat
  sectors_written : Nat
  time_writing : Nat
  io_in_progress : Nat
  io_time : Nat
  io_time_weighted : Nat
deriving DecidableEq

/-- `diskstats.rs::DiskStat::from_str`: fourteen positional fields; the
remainder after the last field is deliberately not checked. -/
def DiskStat.from_str (input : List Char) : Except String DiskStat := do
  let (input, major) ← err_msg (parse_u64 input) "major number"
  let (input, minor) ← err_msg (parse_u64 input) "minor number"
  let (input, name) ← err_msg (parse_token input) "device name"
  let (input, reads_completed) ← err_msg (parse_u64 input) "reads completed successfully"
  let (input, reads_merged) ← err_msg (parse_u64 input) "reads merged"
  let (input, sectors_read) ← err_msg (parse_u64 input) "sectors read"
  let (input, time_reading) ← err_msg (parse_u64 input) "time spent reading (ms)"
  let (input, writes_completed) ← err_msg (parse_u64 input) "writes completed successfully"
  let (input, writes_merged) ← err_msg (parse_u64 input) "writes merged"
  let (input, sectors_written) ← err_msg (parse_u64 input) "sectors written"
  let (input, time_writing) ← err_msg (parse_u64 input) "time writing"
  let (input, io_in_progress) ← err_msg (parse_u64 input) "I/Os currently in progress"
  let (input, io_time) ← err_msg (parse_u64 input) "time spent doing I/Os (ms)"
  let (_input, io_time_weighted) ← err_msg (parse_u64 input) "weighted time spent doing I/Os (ms)"
  pure ⟨major, minor, name, reads_completed, reads_merged, sectors_read,
        time_reading, writes_completed, writes_merged, sectors_written,
        time_writing, io_in_progress, io_time, io_time_weighted⟩

/-- The `loop` of `diskstats.rs::DiskStats::from_reader`.  The `HashMap` is
an association list; `insert(...).is_some()` is a `lookup` on the device
name, and the `panic!("Duplicate device name in /proc/diskstats")` is the
`panicked` outcome.  `UnexpectedEof` breaks the loop, any other error is
returned. -/
def diskStatsLoop (st : LineParser) (inner : List (List Char × DiskStat)) :
    PResult (Except IOError (List (List Char × DiskStat))) :=
  match h : parse_line DiskStat.from_str st with
  | (.ok d, st2) =>
    if (inner.lookup d.name).isSome then
      .panicked "Duplicate device name in /proc/diskstats"
    else diskStatsLoop st2 (inner ++ [(d.name, d)])
  | (.error .unexpectedEof, _) => .ok (.ok inner)
  | (.error e, _) => .ok (.error e)
termination_by lpMeasure st
decreasing_by exact parse_line_ok_lpMeasure h

/-- `diskstats.rs::DiskStats::from_reader`, at line granularity. -/
def DiskStats.from_reader (lines : List (List Char)) :
    PResult (Except IOError (List (List Char × DiskStat))) :=
  diskStatsLoop ⟨lines, []⟩ []

/-- `uptime.rs::Uptime`: the two durations, kept as the `(secs, nanos)`
pairs the source passes to `Duration::new` (with `nanos < 10 ^ 9` the
constructor is injective, no carry happens). -/
structure Uptime where
  up_secs : Nat
  up_nanos : Nat
  idle_secs : Nat
  idle_nanos : Nat
deriving DecidableEq

/-- `uptime.rs::Uptime::from_str`: `u64 "." nanos u64 "." nanos`; the
remainder after the second fractional part is bound to `_input` in the
source and dropped.  A panic inside `parse_nanos` propagates. -/
def Uptime.from_str (input : List Char) : PResult (Except String Uptime) :=
  match parse_u64 input with
  | none => .ok (.error "expected number")
  | some (input, up_secs) =>
    match expect_bytes (String.toList ".") input with
    | none => .ok (.error "expected \".\"")
    | some input =>
      match parse_nanos input with
      | .panicked m => .panicked m
      | .ok none => .ok (.error "expected number")
      | .ok (some (input, up_nanos)) =>
        match parse_u64 input with
        | none => .ok (.error "expected number")
        | some (input, idle_secs) =>
          match expect_bytes (String.toList ".") input with
          | none => .ok (.error "expected \".\"")
          | some input =>
            match parse_nanos input with
            | .panicked m => .panicked m
            | .ok none => .ok (.error "expected number")
            | .ok (some (_input, idle_nanos)) =>
              .ok (.ok ⟨up_secs, up_nanos, idle_secs, idle_nanos⟩)

/-- The exact numeric value a run of decimal digit characters denotes
(most significant first, no wrapping). -/
def digitsVal (ds : List Char) : Nat :=
  ds.foldl (fun a c => a * 10 + (char_to_digit c).getD 0) 0

/-- The decimal digit characters of `n`, most significant first: the
structural recursion that `Nat.toDigitsCore` implements with fuel. -/
def decDigits (n : Nat) : List Char :=
  if h : n < 10 then [Nat.digitChar n]
  else decDigits (n / 10) ++ [Nat.digitChar (n % 10)]
decreasing_by exact Nat.div_lt_self (by omega) (by omega)

/-! ### Character-level facts -/

theorem isSpaceChar_toNat {c : Char} (h : isSpaceChar c = true) :
    c.toNat = 32 ∨ c.toNat = 9 ∨ c.toNat = 10 ∨ c.toNat = 13 ∨
    c.toNat = 11 ∨ c.toNat = 12 := by
  simp only [isSpaceChar, Bool.or_eq_true, decide_eq_true_eq] at h
  rcases h with ((((h | h) | h) | h) | h) | h <;> subst h <;> decide

theorem char_to_digit_bounds {c : Char} {v : Nat} (h : char_to_digit c = some v) :
    48 ≤ c.toNat ∧ c.toNat ≤ 57 ∧ v < 10 := by
  unfold char_to_digit at h
  split at h
  · rename_i hr
    cases h
    exact ⟨hr.1, hr.2, by omega⟩
  · cases h

theorem char_to_digit_not_space {c : Char} {v : Nat}
    (h : char_to_digit c = some v) : isSpaceChar c = false := by
  obtain ⟨h1, h2, _⟩ := char_to_digit_bounds h
  cases hs : isSpaceChar c
  · rfl
  · rcases isSpaceChar_toNat hs with h' | h' | h' | h' | h' | h' <;> omega

theorem char_to_digit_digitChar {d : Nat} (h : d < 10) :
    char_to_digit (Nat.digitChar d) = some d := by
  interval_cases d <;> decide

/-! ### `consume_space` -/

theorem consume_space_append_ws {ws t : List Char}
    (h : ∀ c ∈ ws, isSpaceChar c = true) :
    consume_space (ws ++ t) = consume_space t := by
  induction ws with
  | nil => rfl
  | cons c ws ih =>
    simp only [List.cons_append, consume_space, List.dropWhile_cons,
      h c (List.mem_cons_self ..), if_true]
    exact ih fun x hx => h x (List.mem_cons_of_mem _ hx)

theorem consume_space_cons_not_space {c : Char} {t : List Char}
    (h : isSpaceChar c = false) : consume_space (c :: t) = c :: t := by
  simp [consume_space, List.dropWhile_cons, h]

/-! ### The digit-accumulation loop of `parse_u64` -/

theorem parseU64Loop_digit_run (ds : List Char) :
    ∀ (rest : List Char) (acc : Nat),
    (∀ c ∈ ds, (char_to_digit c).isSome = true) →
    (∀ c, rest.head? = some c → char_to_digit c = none) →
    parseU64Loop (ds ++ rest) acc =
      (rest, ds.foldl (fun a c => (a * 10 + (char_to_digit c).getD 0) % 2 ^ 64) acc) := by
  induction ds with
  | nil =>
    intro rest acc _ hrest
    cases rest with
    | nil => rfl
    | cons c r =>
      simp only [List.nil_append, List.foldl_nil, parseU64Loop, hrest c rfl]
  | cons c ds ih =>
    intro rest acc hds hrest
    obtain ⟨v, hv⟩ := Option.isSome_iff_exists.mp (hds c (List.mem_cons_self ..))
    simp only [List.cons_append, parseU64Loop, hv, List.foldl_cons, Option.getD_some]
    exact ih rest _ (fun x hx => hds x (List.mem_cons_of_mem _ hx)) hrest

theorem foldl_mod_pow64 (ds : List Char) :
    ∀ a : Nat,
    ds.foldl (fun x c => (x * 10 + (char_to_digit c).getD 0) % 2 ^ 64) (a % 2 ^ 64) =
      (ds.foldl (fun x c => x * 10 + (char_to_digit c).getD 0) a) % 2 ^ 64 := by
  induction ds with
  | nil => intro a; rfl
  | cons c ds ih =>
    intro a
    simp only [List.foldl_cons]
    have hmod : (a % 2 ^ 64 * 10 + (char_to_digit c).getD 0) % 2 ^ 64 =
        (a * 10 + (char_to_digit c).getD 0) % 2 ^ 64 :=
      Nat.ModEq.add_right _ (Nat.ModEq.mul_right _ (Nat.mod_modEq a (2 ^ 64)))
    rw [hmod, ih]

/-! ### Digit runs through `parse_u64` -/

/-- C9: on an input that is whitespace, then a non-empty maximal run of
decimal digits, then a non-digit remainder, `parse_u64` consumes exactly the
digit run and returns its value reduced modulo `2 ^ 64`. -/
theorem parse_u64_digit_run (ws ds rest : List Char)
    (hws : ∀ c ∈ ws, isSpaceChar c = true)
    (hne : ds ≠ [])
    (hds : ∀ c ∈ ds, (char_to_digit c).isSome = true)
    (hrest : ∀ c, rest.head? = some c → char_to_digit c = none) :
    parse_u64 (ws ++ (ds ++ rest)) = some (rest, digitsVal ds % 2 ^ 64) := by
  obtain ⟨c, ds2, rfl⟩ : ∃ c ds2, ds = c :: ds2 := by
    cases ds with
    | nil => exact absurd rfl hne
    | cons c t => exact ⟨c, t, rfl⟩
  obtain ⟨v, hv⟩ := Option.isSome_iff_exists.mp (hds c (List.mem_cons_self ..))
  unfold parse_u64
  rw [consume_space_append_ws hws, List.cons_append,
      consume_space_cons_not_space (char_to_digit_not_space hv)]
  simp only [hv]
  rw [parseU64Loop_digit_run ds2 rest v
        (fun x hx => hds x (List.mem_cons_of_mem _ hx)) hrest]
  have hvlt : v < 2 ^ 64 :=
    lt_trans (char_to_digit_bounds hv).2.2 (by norm_num)
  have h2 : digitsVal (c :: ds2) =
      List.foldl (fun a c => a * 10 + (char_to_digit c).getD 0) v ds2 := by
    simp [digitsVal, hv]
  rw [h2, ← foldl_mod_pow64, Nat.mod_eq_of_lt hvlt]

/-! ### Decimal formatting and the round trip -/

theorem toDigitsCore_eq_decDigits :
    ∀ (fuel n : Nat) (ds : List Char), n < fuel →
    Nat.toDigitsCore 10 fuel n ds = decDigits n ++ ds := by
  intro fuel
  induction fuel with
  | zero => intro n ds h; omega
  | succ fuel ih =>
    intro n ds h
    simp only [Nat.toDigitsCore]
    by_cases h10 : n / 10 = 0
    · rw [if_pos h10]
      have hn : n < 10 := by omega
      rw [decDigits, dif_pos hn, Nat.mod_eq_of_lt hn]
      rfl
    · rw [if_neg h10]
      have hn : ¬ n < 10 := by
        intro hlt
        exact h10 (Nat.div_eq_of_lt hlt)
      have hdiv : n / 10 < fuel := by omega
      rw [ih (n / 10) _ hdiv]
      conv_rhs => rw [decDigits]
      rw [dif_neg hn, List.append_assoc]
      rfl

theorem repr_toList_eq_decDigits (n : Nat) :
    (Nat.repr n).toList = decDigits n := by
  have : Nat.toDigits 10 n = decDigits n ++ [] :=
    toDigitsCore_eq_decDigits (n + 1) n [] (Nat.lt_succ_self n)
  simp only [Nat.repr, Nat.toDigits] at *
  rw [List.append_nil] at this
  rw [← this]
  rfl

theorem decDigits_all_digits (n : Nat) :
    ∀ c ∈ decDigits n, (char_to_digit c).isSome = true := by
  induction n using Nat.strong_induction_on with
  | _ n ih =>
    intro c hc
    by_cases hn : n < 10
    · rw [decDigits, dif_pos hn] at hc
      simp only [List.mem_singleton] at hc
      subst hc
      simp [char_to_digit_digitChar hn]
    · rw [decDigits, dif_neg hn] at hc
      rcases List.mem_append.mp hc with hm | hm
      · exact ih (n / 10) (Nat.div_lt_self (by omega) (by omega)) c hm
      · simp only [List.mem_singleton] at hm
        subst hm
        simp [char_to_digit_digitChar (Nat.mod_lt n (by omega))]

theorem digitsVal_decDigits (n : Nat) : digitsVal (decDigits n) = n := by
  induction n using Nat.strong_induction_on with
  | _ n ih =>
    by_cases hn : n < 10
    · rw [decDigits, dif_pos hn]
      simp [digitsVal, char_to_digit_digitChar hn]
    · rw [decDigits, dif_neg hn]
      simp only [digitsVal, List.foldl_append, List.foldl_cons, List.foldl_nil]
      have h1 : digitsVal (decDigits (n / 10)) = n / 10 :=
        ih (n / 10) (Nat.div_lt_self (by omega) (by omega))
      simp only [digitsVal] at h1
      rw [h1, char_to_digit_digitChar (Nat.mod_lt n (by omega)), Option.getD_some]
      omega

theorem decDigits_ne_nil (n : Nat) : decDigits n ≠ [] := by
  by_cases hn : n < 10
  · rw [decDigits, dif_pos hn]; simp
  · rw [decDigits, dif_neg hn]; simp

/-- C8: formatting any value below `2 ^ 64` in decimal and parsing it back
with `parse_u64` yields the value again, with an empty remainder. -/
theorem parse_u64_repr_roundtrip (n : Nat) (h : n < 2 ^ 64) :
    parse_u64 (String.toList (Nat.repr n)) = some ([], n) := by
  rw [repr_toList_eq_decDigits]
  have := parse_u64_digit_run [] (decDigits n) [] (by simp)
    (decDigits_ne_nil n) (decDigits_all_digits n) (by simp)
  simp only [List.nil_append, List.append_nil] at this
  rw [this, digitsVal_decDigits, Nat.mod_eq_of_lt h]

/-- Witness for C8 at a concrete input. -/
theorem parse_u64_repr_roundtrip_witness :
    parse_u64 (String.toList (Nat.repr 1234567)) = some ([], 1234567) :=
  parse_u64_repr_roundtrip 1234567 (by norm_num)

/-- Witness for C9 at a concrete input. -/
theorem parse_u64_digit_run_witness :
    parse_u64 (String.toList " \t40938a7") = some (String.toList "a7", 40938) := by
  have := parse_u64_digit_run (String.toList " \t") (String.toList "40938")
    (String.toList "a7") (by decide) (by decide) (by decide) (by decide)
  simpa using this

/-! ### Step lemmas for `parse_line` -/

theorem parse_line_fetch_ok {α : Type} {p : List Char → Except String α}
    {l : List Char} {v : α} (rest : List (List Char)) (hp : p l = .ok v) :
    parse_line p ⟨l :: rest, []⟩ = (.ok v, ⟨rest, []⟩) := by
  unfold parse_line readLineIfConsumed
  simp [hp]

theorem parse_line_fetch_err {α : Type} {p : List Char → Except String α}
    {l : List Char} {e : String} (rest : List (List Char)) (hp : p l = .error e) :
    parse_line p ⟨l :: rest, []⟩ = (.error (.invalidData e), ⟨rest, l⟩) := by
  unfold parse_line readLineIfConsumed
  simp [hp]

theorem parse_line_eof {α : Type} (p : List Char → Except String α) :
    parse_line p ⟨[], []⟩ = (.error .unexpectedEof, ⟨[], []⟩) := by
  unfold parse_line readLineIfConsumed
  simp

theorem parse_line_buf_ok {α : Type} {p : List Char → Except String α}
    {b : List Char} {v : α} (lines : List (List Char)) (hb : b ≠ [])
    (hp : p b = .ok v) :
    parse_line p ⟨lines, b⟩ = (.ok v, ⟨lines, []⟩) := by
  unfold parse_line readLineIfConsumed
  simp [List.isEmpty_iff, hb, hp]

theorem parse_line_buf_err {α : Type} {p : List Char → Except String α}
    {b : List Char} {e : String} (lines : List (List Char)) (hb : b ≠ [])
    (hp : p b = .error e) :
    parse_line p ⟨lines, b⟩ = (.error (.invalidData e), ⟨lines, b⟩) := by
  unfold parse_line readLineIfConsumed
  simp [List.isEmpty_iff, hb, hp]

/-- C5: with a line in the buffer, `parse_line` clears the buffer exactly
when the decoder succeeds; on a decoder failure the whole state — the
buffered line included — is returned unchanged, available for a different
decoder. -/
theorem parse_line_clears_buffer_iff_success {α : Type}
    (p : List Char → Except String α) (st : LineParser) (h : st.buffer ≠ []) :
    (∀ v st2, parse_line p st = (.ok v, st2) →
        st2.buffer = [] ∧ st2.lines = st.lines) ∧
    (∀ e st2, parse_line p st = (.error e, st2) → st2 = st) := by
  constructor
  · intro v st2 heq
    cases hp : p st.buffer with
    | error e => rw [parse_line_buf_err st.lines h hp] at heq; simp at heq
    | ok w =>
      rw [parse_line_buf_ok st.lines h hp] at heq
      cases heq
      exact ⟨rfl, rfl⟩
  · intro e st2 heq
    cases hp : p st.buffer with
    | error e2 =>
      rw [parse_line_buf_err st.lines h hp] at heq
      cases heq
      rfl
    | ok w => rw [parse_line_buf_ok st.lines h hp] at heq; simp at heq

/-- Witness for C5: a state buffering the line `ctxt 5`; the `ctxt` decoder
succeeds and the returned state has an empty buffer. -/
theorem parse_line_clears_buffer_iff_success_witness :
    (LineParser.mk [] (String.toList "ctxt 5\n")).buffer ≠ [] ∧
    (LineParser.mk ([] : List (List Char)) ([] : List Char)).buffer = [] :=
  ⟨by decide,
   ((parse_line_clears_buffer_iff_success (parse_single "ctxt")
       (LineParser.mk [] (String.toList "ctxt 5\n")) (by decide)).1 5
       (LineParser.mk [] []) (by decide)).1⟩

/-! ### The per-core loop of `Stat::from_reader` -/

theorem statCpuLoop_step_ok {l : List Char} {c : StatCpu}
    (rest : List (List Char)) (acc : List StatCpu)
    (hp : StatCpu.from_str l = some c) :
    statCpuLoop ⟨l :: rest, []⟩ acc = statCpuLoop ⟨rest, []⟩ (acc ++ [c]) := by
  rw [statCpuLoop]
  rw [parse_line_fetch_ok rest (show statCoreDecoder l = .ok c by
    simp [statCoreDecoder, hp])]

theorem statCpuLoop_step_err {l : List Char}
    (rest : List (List Char)) (acc : List StatCpu)
    (hp : StatCpu.from_str l = none) :
    statCpuLoop ⟨l :: rest, []⟩ acc = (acc, ⟨rest, l⟩) := by
  rw [statCpuLoop]
  rw [parse_line_fetch_err rest (show statCoreDecoder l = .error "" by
    simp [statCoreDecoder, hp])]

theorem statCpuLoop_eof (acc : List StatCpu) :
    statCpuLoop ⟨[], []⟩ acc = (acc, ⟨[], []⟩) := by
  rw [statCpuLoop]
  rw [parse_line_eof]

theorem statCpuLoop_decodes {cores : List (List Char)} {cs : List StatCpu}
    (hf : List.Forall₂ (fun l c => StatCpu.from_str l = some c) cores cs) :
    ∀ (rest : List (List Char)) (acc : List StatCpu),
    statCpuLoop ⟨cores ++ rest, []⟩ acc = statCpuLoop ⟨rest, []⟩ (acc ++ cs) := by
  induction hf with
  | nil => intro rest acc; simp
  | @cons l c cores cs hlc _ ih =>
    intro rest acc
    rw [List.cons_append, statCpuLoop_step_ok _ _ hlc, ih, List.append_assoc]
    rfl

/-! ### C7: a truncated aggregate-stat stream -/

/-- C7: a well-formed aggregate-stat stream that ends right after the
`procs_running` line decodes to the end-of-stream error — not a panic, and
no partially populated `Stat` value. -/
theorem stat_truncated_missing_procs_blocked
    (agg : List Char) (cores : List (List Char)) (lc lb lp lr : List Char)
    (cAgg : StatCpu) (cs : List StatCpu) (n1 n2 n3 n4 : Nat)
    (h0 : StatCpu.from_str agg = some cAgg)
    (h1 : List.Forall₂ (fun l c => StatCpu.from_str l = some c) cores cs)
    (h2 : StatCpu.from_str lc = none)
    (h3 : parse_single "ctxt" lc = .ok n1)
    (h4 : parse_single "btime" lb = .ok n2)
    (h5 : parse_single "processes" lp = .ok n3)
    (h6 : parse_single "procs_running" lr = .ok n4) :
    Stat.from_reader (agg :: (cores ++ [lc, lb, lp, lr])) =
      .error .unexpectedEof := by
  have hlc : lc ≠ [] := by
    intro he
    rw [he] at h3
    simp [parse_single, parse_token, consume_space] at h3
  have e0 : statTotalsDecoder agg = .ok cAgg := by simp [statTotalsDecoder, h0]
  unfold Stat.from_reader
  simp only [parse_line_fetch_ok _ e0, statCpuLoop_decodes h1,
    statCpuLoop_step_err _ _ h2, List.nil_append,
    parse_line_buf_ok _ hlc h3, parse_line_fetch_ok _ h4,
    parse_line_fetch_ok _ h5, parse_line_fetch_ok _ h6, parse_line_eof]

/-- Witness for C7: one per-core line, then the four labelled lines, then
end of stream. -/
theorem stat_truncated_missing_procs_blocked_witness :
    Stat.from_reader
      [String.toList "cpu 1 2 3 4 5 6 7 8 9\n",
       String.toList "cpu0 1 2 3 4 5 6 7 8 9\n",
       String.toList "ctxt 11\n",
       String.toList "btime 12\n",
       String.toList "processes 13\n",
       String.toList "procs_running 14\n"] = .error .unexpectedEof :=
  stat_truncated_missing_procs_blocked
    (String.toList "cpu 1 2 3 4 5 6 7 8 9\n")
    [String.toList "cpu0 1 2 3 4 5 6 7 8 9\n"]
    (String.toList "ctxt 11\n") (String.toList "btime 12\n")
    (String.toList "processes 13\n") (String.toList "procs_running 14\n")
    ⟨1, 2, 3, 4, 5, 6, 7, 8, 9⟩ [⟨1, 2, 3, 4, 5, 6, 7, 8, 9⟩] 11 12 13 14
    (by decide) (List.Forall₂.cons (by decide) List.Forall₂.nil)
    (by decide) (by decide) (by decide) (by decide) (by decide)

/-- C1, evaluated: on a stream with an aggregate line, four per-core lines,
an unmodeled `intr` line and the five labelled lines in order,
`Stat::from_reader` does not skip the `intr` line.  The per-core loop leaves
it in the buffer, the `ctxt` decoder then runs on it, and the whole decode
fails with the `incorrect name` error instead of succeeding with
`cpus.len() == 4` — the code's own `test_stat` fixture has this shape and
expects success. -/
theorem stat_unmodeled_line_fails :
    Stat.from_reader
      [String.toList "cpu 1 2 3 4 5 6 7 8 9\n",
       String.toList "cpu0 1 2 3 4 5 6 7 8 9\n",
       String.toList "cpu1 1 2 3 4 5 6 7 8 9\n",
       String.toList "cpu2 1 2 3 4 5 6 7 8 9\n",
       String.toList "cpu3 1 2 3 4 5 6 7 8 9\n",
       String.toList "intr 10 11 12\n",
       String.toList "ctxt 13\n",
       String.toList "btime 14\n",
       String.toList "processes 15\n",
       String.toList "procs_running 16\n",
       String.toList "procs_blocked 17\n"] =
      .error (.invalidData "incorrect name") := by
  unfold Stat.from_reader
  simp only [parse_line_fetch_ok _
      (show statTotalsDecoder (String.toList "cpu 1 2 3 4 5 6 7 8 9\n") =
        .ok ⟨1, 2, 3, 4, 5, 6, 7, 8, 9⟩ by decide),
    statCpuLoop_step_ok _ _
      (show StatCpu.from_str (String.toList "cpu0 1 2 3 4 5 6 7 8 9\n") =
        some ⟨1, 2, 3, 4, 5, 6, 7, 8, 9⟩ by decide),
    statCpuLoop_step_ok _ _
      (show StatCpu.from_str (String.toList "cpu1 1 2 3 4 5 6 7 8 9\n") =
        some ⟨1, 2, 3, 4, 5, 6, 7, 8, 9⟩ by decide),
    statCpuLoop_step_ok _ _
      (show StatCpu.from_str (String.toList "cpu2 1 2 3 4 5 6 7 8 9\n") =
        some ⟨1, 2, 3, 4, 5, 6, 7, 8, 9⟩ by decide),
    statCpuLoop_step_ok _ _
      (show StatCpu.from_str (String.toList "cpu3 1 2 3 4 5 6 7 8 9\n") =
        some ⟨1, 2, 3, 4, 5, 6, 7, 8, 9⟩ by decide),
    statCpuLoop_step_err _ _
      (show StatCpu.from_str (String.toList "intr 10 11 12\n") = none by decide),
    parse_line_buf_err _
      (show String.toList "intr 10 11 12\n" ≠ [] by decide)
      (show parse_single "ctxt" (String.toList "intr 10 11 12\n") =
        .error "incorrect name" by decide)]

/-- C2, evaluated: `StatCpu::from_str` requires a whitespace-only tail after
the nine counters, so the crate's own ten-column `test_stat` cpu line — the
tenth column is `guest_nice` on current kernels — is rejected (`none`),
while the same line without the extra column decodes. -/
theorem statcpu_extra_column_rejected :
    StatCpu.from_str
      (String.toList "cpu  17501 2 6293 8212469 20141 1955 805 0 0 0\n") = none ∧
    StatCpu.from_str
      (String.toList "cpu  17501 2 6293 8212469 20141 1955 805 0 0\n") =
      some ⟨17501, 2, 6293, 8212469, 20141, 1955, 805, 0, 0⟩ := by
  constructor <;> decide

/-- C3, evaluated: `parse_nanos` hits the `too many numbers` panic already
on an 8-digit run (the check `multer == 1` fires after the eighth digit has
consumed the tens multiplier), while a 7-digit run still returns a value —
so the fault is not reserved for runs of more than 9 digits. -/
theorem parse_nanos_panics_on_eight_digits :
    parse_nanos (String.toList "12345678") = .panicked "too many numbers" ∧
    parse_nanos (String.toList "1234567") = .ok (some ([], 123456700)) := by
  constructor <;> decide

/-! ### The device loop of `DiskStats::from_reader` -/

theorem lookup_isSome_iff {β : Type} (inner : List (List Char × β)) (a : List Char) :
    (inner.lookup a).isSome = true ↔ a ∈ inner.map Prod.fst := by
  induction inner with
  | nil =>
    rw [List.lookup_nil]
    exact ⟨fun hx => Bool.noConfusion hx, fun hx => absurd hx (List.not_mem_nil a)⟩
  | cons p t ih =>
    obtain ⟨k, v⟩ := p
    rw [List.lookup_cons]
    by_cases h : a = k
    · subst h
      rw [beq_self_eq_true]
      exact ⟨fun _ => List.mem_cons_self .., fun _ => rfl⟩
    · rw [beq_false_of_ne h]
      show (t.lookup a).isSome = true ↔ _
      rw [ih]
      constructor
      · intro hm
        exact List.mem_cons_of_mem _ hm
      · intro hm
        rcases List.mem_cons.mp hm with he | hm2
        · exact absurd he h
        · exact hm2

theorem diskStatsLoop_step_ok {l : List Char} {d : DiskStat}
    (rest : List (List Char)) (inner : List (List Char × DiskStat))
    (hp : DiskStat.from_str l = .ok d) :
    diskStatsLoop ⟨l :: rest, []⟩ inner =
      if (inner.lookup d.name).isSome then
        .panicked "Duplicate device name in /proc/diskstats"
      else diskStatsLoop ⟨rest, []⟩ (inner ++ [(d.name, d)]) := by
  rw [diskStatsLoop]
  rw [parse_line_fetch_ok rest hp]

theorem diskStatsLoop_eof (inner : List (List Char × DiskStat)) :
    diskStatsLoop ⟨[], []⟩ inner = .ok (.ok inner) := by
  rw [diskStatsLoop]
  rw [parse_line_eof]

theorem diskStatsLoop_spec {ls : List (List Char)} {ds : List DiskStat}
    (hf : List.Forall₂ (fun l d => DiskStat.from_str l = Except.ok d) ls ds) :
    ∀ inner : List (List Char × DiskStat),
    (inner.map Prod.fst).Nodup →
    ((inner.map Prod.fst ++ ds.map DiskStat.name).Nodup →
       diskStatsLoop ⟨ls, []⟩ inner =
         .ok (.ok (inner ++ ds.map fun d => (d.name, d)))) ∧
    (¬ (inner.map Prod.fst ++ ds.map DiskStat.name).Nodup →
       diskStatsLoop ⟨ls, []⟩ inner =
         .panicked "Duplicate device name in /proc/diskstats") := by
  induction hf with
  | nil =>
    intro inner hinner
    constructor
    · intro _
      rw [diskStatsLoop_eof, List.map_nil, List.append_nil]
    · intro hdup
      exact absurd (by rw [List.map_nil, List.append_nil]; exact hinner) hdup
  | @cons l d ls ds hld _ ih =>
    intro inner hinner
    rw [diskStatsLoop_step_ok _ _ hld]
    by_cases hmem : d.name ∈ inner.map Prod.fst
    · rw [if_pos ((lookup_isSome_iff ..).mpr hmem)]
      refine ⟨fun hnd => ?_, fun _ => rfl⟩
      exact (((List.nodup_append.mp hnd).2.2 hmem) (List.mem_cons_self ..)).elim
    · rw [if_neg (fun hs => hmem ((lookup_isSome_iff ..).mp hs))]
      have hkeys : ((inner ++ [(d.name, d)]).map Prod.fst).Nodup := by
        rw [List.map_append]
        refine List.nodup_append.mpr ⟨hinner, List.nodup_singleton _, ?_⟩
        intro x hx hx2
        rcases List.mem_singleton.mp hx2 with rfl
        exact hmem hx
      have heq : (inner ++ [(d.name, d)]).map Prod.fst ++ ds.map DiskStat.name =
          inner.map Prod.fst ++ (d :: ds).map DiskStat.name := by
        rw [List.map_append, List.append_assoc]
        rfl
      obtain ⟨hsucc, hdup⟩ := ih (inner ++ [(d.name, d)]) hkeys
      refine ⟨fun hnd => ?_, fun hnnd => ?_⟩
      · rw [hsucc (by rw [heq]; exact hnd), List.append_assoc]
        rfl
      · exact hdup (by rw [heq]; exact hnnd)

/-- C6: on a stream whose every line decodes as a device record, decoding
succeeds (collecting all devices, in file order) when the device names are
pairwise distinct, and hits the fatal duplicate-device failure
(`panic!("Duplicate device name in /proc/diskstats")`) when some name
repeats. -/
theorem diskstats_unique_device_names (ls : List (List Char)) (ds : List DiskStat)
    (hf : List.Forall₂ (fun l d => DiskStat.from_str l = Except.ok d) ls ds) :
    ((ds.map DiskStat.name).Nodup →
       DiskStats.from_reader ls = .ok (.ok (ds.map fun d => (d.name, d)))) ∧
    (¬ (ds.map DiskStat.name).Nodup →
       DiskStats.from_reader ls = .panicked "Duplicate device name in /proc/diskstats") := by
  have h := diskStatsLoop_spec hf [] (by simp)
  simpa [DiskStats.from_reader] using h

/-- Witness for C6: two copies of one device line duplicate the name `sda`
and decoding hits the fatal duplicate-device failure. -/
theorem diskstats_unique_device_names_witness :
    DiskStats.from_reader
      [String.toList "1 2 sda 3 4 5 6 7 8 9 10 11 12 13\n",
       String.toList "1 2 sda 3 4 5 6 7 8 9 10 11 12 13\n"] =
      .panicked "Duplicate device name in /proc/diskstats" :=
  (diskstats_unique_device_names
      [String.toList "1 2 sda 3 4 5 6 7 8 9 10 11 12 13\n",
       String.toList "1 2 sda 3 4 5 6 7 8 9 10 11 12 13\n"]
      [⟨1, 2, String.toList "sda", 3, 4, 5, 6, 7, 8, 9, 10, 11, 12, 13⟩,
       ⟨1, 2, String.toList "sda", 3, 4, 5, 6, 7, 8, 9, 10, 11, 12, 13⟩]
      (List.Forall₂.cons (by decide)
        (List.Forall₂.cons (by decide) List.Forall₂.nil))).2 (by decide)

/-- C10: an empty input stream — end of stream before any line — is normal
termination of the device loop: decoding succeeds with zero devices. -/
theorem diskstats_empty_stream_ok :
    DiskStats.from_reader [] = .ok (.ok []) := by
  unfold DiskStats.from_reader
  rw [diskStatsLoop_eof]

/-! ### C4: trailing content after the second uptime number -/

/-- Counterexample to C4 as stated: an uptime line with trailing
non-whitespace content after the second number decodes successfully — the
source binds the final remainder to `_input` and drops it — rather than
returning a fatal decode error. -/
theorem uptime_trailing_content_accepted :
    Uptime.from_str (String.toList "1640919.14 2328903.47 trailing junk\n") =
      .ok (.ok ⟨1640919, 140000000, 2328903, 470000000⟩) := by
  decide

/-- C4 as amended: whenever the two fixed-point numbers parse, `Uptime`
decoding succeeds with exactly those values whatever remainder `s6` — in
particular trailing non-whitespace content — is left after the second
number; a missing decimal point or non-numeric field still fails earlier in
the chain. -/
theorem uptime_from_str_ignores_trailing
    (s s1 s2 s3 s4 s5 s6 : List Char) (a b c d : Nat)
    (h1 : parse_u64 s = some (s1, a))
    (h2 : expect_bytes (String.toList ".") s1 = some s2)
    (h3 : parse_nanos s2 = .ok (some (s3, b)))
    (h4 : parse_u64 s3 = some (s4, c))
    (h5 : expect_bytes (String.toList ".") s4 = some s5)
    (h6 : parse_nanos s5 = .ok (some (s6, d))) :
    Uptime.from_str s = .ok (.ok ⟨a, b, c, d⟩) := by
  unfold Uptime.from_str
  simp only [h1, h2, h3, h4, h5, h6]

/-- Witness for the amended C4 at a concrete input with trailing content. -/
theorem uptime_from_str_ignores_trailing_witness :
    Uptime.from_str (String.toList "7.5 3.25 xx") =
      .ok (.ok ⟨7, 500000000, 3, 250000000⟩) :=
  uptime_from_str_ignores_trailing
    (String.toList "7.5 3.25 xx") (String.toList ".5 3.25 xx")
    (String.toList "5 3.25 xx") (String.toList " 3.25 xx")
    (String.toList ".25 xx") (String.toList "25 xx") (String.toList " xx")
    7 500000000 3 250000000
    (by decide) (by decide) (by decide) (by decide) (by decide) (by decide)

end LinuxProc
